import Mathlib

set_option maxHeartbeats 1000000

/-!
Shallow embedding of `proj_4_module.py`: the generic explicit integrator
`dynamics_solve` and the Hamiltonian integrator `hamiltonian_solve`, with an
arbitrary field `R` of scalars in place of floating point.  A state of
`dynamics_solve` is an element of a module over the scalars (`R` itself for
dimension `D = 1`, `Fin D → R` for `D > 1`; the code runs the same elementwise
arithmetic on both shapes).  The Hamiltonian solver is stated over `Fin d → R`,
whose componentwise arithmetic is the NumPy array arithmetic of the code,
because its RK4 branch broadcast-adds the scalar `h` to a state (`Q[n] + h`).
The partial-derivative callables of `hamiltonian_solve` receive an `Option R`
in the time slot: the code passes two arguments (modelled as `none`) in the
Euler/RK2/RK4 branches and three (`some t`) in the SE/SV branches.
-/

/-- Entry `T[n] = t_0 + n * h` of the uniform time grid built by both solvers
as `T = np.array([t_0 + n * h for n in range(N + 1)])`. -/
def timeGrid {R : Type} [Field R] (t0 h : R) (n : ℕ) : R := t0 + n * h

/-- State `S[n]` produced by the stepping loops of `dynamics_solve`
(`proj_4_module.py`, lines 38-54): entry `0` is `s_0`; entry `n + 1` is the
Euler, RK2 or RK4 update of entry `n`, and stays at its zero-initialized
value for an unrecognized method string.  Note the RK4 branch evaluates the
fourth stage at time `T[n]`, exactly as line 53 of the code does. -/
def dynState {R : Type} [Field R] {σ : Type} [AddCommGroup σ] [Module R σ]
    (f : R → σ → σ) (t0 : R) (s0 : σ) (h : R) (method : String) : ℕ → σ
  | 0 => s0
  | n + 1 =>
    let s := dynState f t0 s0 h method n
    let t := timeGrid t0 h n
    if method = "Euler" then
      s + h • f t s
    else if method = "RK2" then
      let k1 := h • f t s
      let k2 := h • f (t + (1/2 : R) * h) (s + (1/2 : R) • k1)
      s + k2
    else if method = "RK4" then
      let k1 := h • f t s
      let k2 := h • f (t + (1/2 : R) * h) (s + (1/2 : R) • k1)
      let k3 := h • f (t + (1/2 : R) * h) (s + (1/2 : R) • k2)
      let k4 := h • f t (s + k3)
      s + (1/6 : R) • (k1 + (2 : R) • k2 + (2 : R) • k3 + k4)
    else 0

/-- The solver `dynamics_solve(f, D, t_0, s_0, h, N, method)` of
`proj_4_module.py`: returns the time grid `T` and the state trajectory `S`,
both of length `N + 1`. -/
def dynamics_solve {R : Type} [Field R] {σ : Type} [AddCommGroup σ] [Module R σ]
    (f : R → σ → σ) (t0 : R) (s0 : σ) (h : R) (N : ℕ) (method : String) :
    List R × List σ :=
  ((List.range (N + 1)).map (timeGrid t0 h),
   (List.range (N + 1)).map (dynState f t0 s0 h method))

/-- Broadcast sum of a state and a scalar, the NumPy expression `Q[n] + h`
appearing in the RK4 branch of `hamiltonian_solve` (lines 130-131). -/
def addS {R : Type} [Field R] {d : ℕ} (v : Fin d → R) (x : R) : Fin d → R :=
  fun i => v i + x

/-- Pair `(Q[n], P[n])` produced by the stepping loops of `hamiltonian_solve`
(`proj_4_module.py`, lines 99-149).  Entry `0` is `(q_0, p_0)`; entry `n + 1`
follows the selected branch exactly: the Euler/RK2/RK4 branches call the
derivative callables with two arguments (time slot `none`), the SE/SV branches
with three (time slot `some (T[n])`); the RK2/RK4 stage offsets reuse `k1_Q`
(resp. `k1_P`) in both slots as the code does, and the RK4 fourth stage uses
the broadcast `Q[n] + h`.  An unrecognized method string leaves the entries at
their zero-initialized value. -/
def hamState {R : Type} [Field R] {d : ℕ}
    (d_qH d_pH : (Fin d → R) → (Fin d → R) → Option R → (Fin d → R))
    (t0 : R) (q0 p0 : Fin d → R) (h : R) (method : String) :
    ℕ → (Fin d → R) × (Fin d → R)
  | 0 => (q0, p0)
  | n + 1 =>
    let Q := (hamState d_qH d_pH t0 q0 p0 h method n).1
    let P := (hamState d_qH d_pH t0 q0 p0 h method n).2
    let t := timeGrid t0 h n
    if method = "Euler" then
      (Q + h • d_pH Q P none, P - h • d_qH Q P none)
    else if method = "RK2" then
      let k1_Q := h • d_pH Q P none
      let k1_P := -(h • d_qH Q P none)
      let k2_Q := h • d_pH (Q + (1/2 : R) • k1_Q) (P + (1/2 : R) • k1_Q) none
      let k2_P := -(h • d_qH (Q + (1/2 : R) • k1_P) (P + (1/2 : R) • k1_P) none)
      (Q + k2_Q, P + k2_P)
    else if method = "RK4" then
      let k1_Q := h • d_pH Q P none
      let k1_P := -(h • d_qH Q P none)
      let k2_Q := h • d_pH (Q + (1/2 : R) • k1_Q) (P + (1/2 : R) • k1_Q) none
      let k2_P := -(h • d_qH (Q + (1/2 : R) • k1_P) (P + (1/2 : R) • k1_P) none)
      let k3_Q := h • d_pH (Q + (1/2 : R) • k2_Q) (P + (1/2 : R) • k2_Q) none
      let k3_P := -(h • d_qH (Q + (1/2 : R) • k2_P) (P + (1/2 : R) • k2_P) none)
      let k4_Q := h • d_pH (addS Q h) (P + k3_Q) none
      let k4_P := -(h • d_qH (addS Q h) (P + k3_P) none)
      (Q + (1/6 : R) • (k1_Q + (2 : R) • k2_Q + (2 : R) • k3_Q + k4_Q),
       P + (1/6 : R) • (k1_P + (2 : R) • k2_P + (2 : R) • k3_P + k4_P))
    else if method = "SE" then
      let Q1 := Q + h • d_pH Q P (some t)
      (Q1, P - h • d_qH Q1 P (some t))
    else if method = "SV" then
      let k1 := P - (h * (1/2 : R)) • d_qH Q P (some t)
      let Q1 := Q + h • d_pH Q k1 (some t)
      (Q1, k1 - (h * (1/2 : R)) • d_qH Q1 P (some t))
    else (0, 0)

/-- The solver `hamiltonian_solve(d_qH, d_pH, d, t_0, q_0, p_0, h, N, method,
K, m)` of `proj_4_module.py`: returns the time grid `T` and the position and
momentum trajectories `Q`, `P`, all of length `N + 1`.  The physical
parameters `K` and `m` are accepted but never read, as in the code. -/
def hamiltonian_solve {R : Type} [Field R] {d : ℕ}
    (d_qH d_pH : (Fin d → R) → (Fin d → R) → Option R → (Fin d → R))
    (t0 : R) (q0 p0 : Fin d → R) (h : R) (N : ℕ) (method : String) (K m : R) :
    List R × List (Fin d → R) × List (Fin d → R) :=
  ((List.range (N + 1)).map (timeGrid t0 h),
   (List.range (N + 1)).map (fun n => (hamState d_qH d_pH t0 q0 p0 h method n).1),
   (List.range (N + 1)).map (fun n => (hamState d_qH d_pH t0 q0 p0 h method n).2))

/-- Classical fourth-order Runge-Kutta step as the specification states it
(section 4.1): `k4 = h • f (t + h) (s + k3)`, the fourth stage evaluated at
time `t + h`.  Kept separate from `dynState` to compare against the code's
RK4 branch, whose fourth stage uses time `t`. -/
def rk4_step_spec {R : Type} [Field R] {σ : Type} [AddCommGroup σ] [Module R σ]
    (f : R → σ → σ) (h t : R) (s : σ) : σ :=
  let k1 := h • f t s
  let k2 := h • f (t + h / 2) (s + (1/2 : R) • k1)
  let k3 := h • f (t + h / 2) (s + (1/2 : R) • k2)
  let k4 := h • f (t + h) (s + k3)
  s + (1/6 : R) • (k1 + (2 : R) • k2 + (2 : R) • k3 + k4)

/-- Concrete derivative `∂H/∂q = q` of the harmonic oscillator
`H = p²/2 + q²/2` in dimension `1` over `ℚ`, for concrete runs. -/
def qGrad1 : (Fin 1 → ℚ) → (Fin 1 → ℚ) → Option ℚ → (Fin 1 → ℚ) :=
  fun q _ _ => q

/-- Concrete derivative `∂H/∂p = p` of the harmonic oscillator in dimension
`1` over `ℚ`, for concrete runs. -/
def pGrad1 : (Fin 1 → ℚ) → (Fin 1 → ℚ) → Option ℚ → (Fin 1 → ℚ) :=
  fun _ p _ => p

/-- Constant initial state `0` in dimension `1` over `ℚ`. -/
def cst0 : Fin 1 → ℚ := fun _ => 0

/-- Constant initial state `1` in dimension `1` over `ℚ`. -/
def cst1 : Fin 1 → ℚ := fun _ => 1

/-- Coupled-pair vector field `(dq/dt, dp/dt) = (dpH(q,p), -dqH(q,p))` of the
harmonic oscillator, fed to `dynamics_solve` with state `(q, p)` to compare
against `hamiltonian_solve` branch by branch. -/
def oscPair : ℚ → (Fin 1 → ℚ) × (Fin 1 → ℚ) → (Fin 1 → ℚ) × (Fin 1 → ℚ) :=
  fun _ s => (s.2, -s.1)

/-- Indexing a length-`N + 1` mapped range list. -/
theorem getD_map_range {β : Type} (g : ℕ → β) (N n : ℕ) (hn : n < N + 1)
    (y : β) : ((List.range (N + 1)).map g).getD n y = g n := by
  rw [List.getD_eq_getElem _ _ (by simpa using hn)]
  simp

/-- Entry `n` of the time grid returned by `dynamics_solve`. -/
theorem dyn_T_getD {R : Type} [Field R] {σ : Type} [AddCommGroup σ] [Module R σ]
    (f : R → σ → σ) (t0 : R) (s0 : σ) (h : R) (N : ℕ) (method : String)
    (n : ℕ) (hn : n < N + 1) :
    (dynamics_solve f t0 s0 h N method).1.getD n 0 = t0 + n * h :=
  getD_map_range (timeGrid t0 h) N n hn 0

/-- Entry `n` of the state trajectory returned by `dynamics_solve`. -/
theorem dyn_S_getD {R : Type} [Field R] {σ : Type} [AddCommGroup σ] [Module R σ]
    (f : R → σ → σ) (t0 : R) (s0 : σ) (h : R) (N : ℕ) (method : String)
    (n : ℕ) (hn : n < N + 1) :
    (dynamics_solve f t0 s0 h N method).2.getD n 0 = dynState f t0 s0 h method n :=
  getD_map_range (dynState f t0 s0 h method) N n hn 0

/-- Entry `n` of the time grid returned by `hamiltonian_solve`. -/
theorem ham_T_getD {R : Type} [Field R] {d : ℕ}
    (d_qH d_pH : (Fin d → R) → (Fin d → R) → Option R → (Fin d → R))
    (t0 : R) (q0 p0 : Fin d → R) (h : R) (N : ℕ) (method : String) (K m : R)
    (n : ℕ) (hn : n < N + 1) :
    (hamiltonian_solve d_qH d_pH t0 q0 p0 h N method K m).1.getD n 0 = t0 + n * h :=
  getD_map_range (timeGrid t0 h) N n hn 0

/-- Entry `n` of the position trajectory returned by `hamiltonian_solve`. -/
theorem ham_Q_getD {R : Type} [Field R] {d : ℕ}
    (d_qH d_pH : (Fin d → R) → (Fin d → R) → Option R → (Fin d → R))
    (t0 : R) (q0 p0 : Fin d → R) (h : R) (N : ℕ) (method : String) (K m : R)
    (n : ℕ) (hn : n < N + 1) :
    (hamiltonian_solve d_qH d_pH t0 q0 p0 h N method K m).2.1.getD n 0 =
      (hamState d_qH d_pH t0 q0 p0 h method n).1 :=
  getD_map_range (fun n => (hamState d_qH d_pH t0 q0 p0 h method n).1) N n hn 0

/-- Entry `n` of the momentum trajectory returned by `hamiltonian_solve`. -/
theorem ham_P_getD {R : Type} [Field R] {d : ℕ}
    (d_qH d_pH : (Fin d → R) → (Fin d → R) → Option R → (Fin d → R))
    (t0 : R) (q0 p0 : Fin d → R) (h : R) (N : ℕ) (method : String) (K m : R)
    (n : ℕ) (hn : n < N + 1) :
    (hamiltonian_solve d_qH d_pH t0 q0 p0 h N method K m).2.2.getD n 0 =
      (hamState d_qH d_pH t0 q0 p0 h method n).2 :=
  getD_map_range (fun n => (hamState d_qH d_pH t0 q0 p0 h method n).2) N n hn 0

/-- Unrecognized method strings leave every `dynamics_solve` state entry
after index `0` at its zero-initialized value. -/
theorem dynState_unknown {R : Type} [Field R] {σ : Type} [AddCommGroup σ]
    [Module R σ] (f : R → σ → σ) (t0 : R) (s0 : σ) (h : R) (method : String)
    (h1 : method ≠ "Euler") (h2 : method ≠ "RK2") (h3 : method ≠ "RK4")
    (n : ℕ) : dynState f t0 s0 h method (n + 1) = 0 := by
  simp only [dynState]
  rw [if_neg h1, if_neg h2, if_neg h3]

/-- Unrecognized method strings leave every `hamiltonian_solve` trajectory
entry after index `0` at its zero-initialized value. -/
theorem hamState_unknown {R : Type} [Field R] {d : ℕ}
    (d_qH d_pH : (Fin d → R) → (Fin d → R) → Option R → (Fin d → R))
    (t0 : R) (q0 p0 : Fin d → R) (h : R) (method : String)
    (h1 : method ≠ "Euler") (h2 : method ≠ "RK2") (h3 : method ≠ "RK4")
    (h4 : method ≠ "SE") (h5 : method ≠ "SV")
    (n : ℕ) : hamState d_qH d_pH t0 q0 p0 h method (n + 1) = (0, 0) := by
  simp only [hamState]
  rw [if_neg h1, if_neg h2, if_neg h3, if_neg h4, if_neg h5]

/-- C9: for `f(t,s) = s`, `D = 1`, `s_0 = 1`, `h = 1/10`, `N = 10` and the
Euler method, `dynamics_solve` returns `S` with `S[10] = (11/10)^10`. -/
theorem euler_linear_growth :
    (dynamics_solve (fun _ s => s) (0 : ℚ) (1 : ℚ) (1/10) 10 "Euler").2.getD 10 0 =
      (11/10 : ℚ) ^ 10 := by
  rw [dyn_S_getD _ _ _ _ _ _ 10 (by norm_num)]
  norm_num [dynState, timeGrid]

/-- C7: for every `t_0`, `h`, `N ≥ 0` and any method string, the time grid
returned by both `dynamics_solve` and `hamiltonian_solve` has length `N + 1`
and its entry `n` equals `t_0 + n * h` for every `n ≤ N`. -/
theorem time_grid_values {R : Type} [Field R] {σ : Type} [AddCommGroup σ]
    [Module R σ] {d : ℕ} (f : R → σ → σ)
    (d_qH d_pH : (Fin d → R) → (Fin d → R) → Option R → (Fin d → R))
    (t0 : R) (s0 : σ) (q0 p0 : Fin d → R) (h : R) (N : ℕ) (method : String)
    (K m : R) (n : ℕ) (hn : n ≤ N) :
    (dynamics_solve f t0 s0 h N method).1.length = N + 1 ∧
    (hamiltonian_solve d_qH d_pH t0 q0 p0 h N method K m).1.length = N + 1 ∧
    (dynamics_solve f t0 s0 h N method).1.getD n 0 = t0 + n * h ∧
    (hamiltonian_solve d_qH d_pH t0 q0 p0 h N method K m).1.getD n 0 = t0 + n * h := by
  refine ⟨by simp [dynamics_solve], by simp [hamiltonian_solve], ?_, ?_⟩
  · exact dyn_T_getD f t0 s0 h N method n (by omega)
  · exact ham_T_getD d_qH d_pH t0 q0 p0 h N method K m n (by omega)

/-- Witness for C7 at a concrete input: `t_0 = 1`, `h = 2`, `N = 3`, `n = 2`
over `ℚ`, with dimension `1`. -/
theorem time_grid_values_check :
    2 ≤ 3 ∧
    ((dynamics_solve (fun _ s => s) (1 : ℚ) (0 : ℚ) 2 3 "Euler").1.length = 3 + 1 ∧
    (hamiltonian_solve qGrad1 pGrad1 (1 : ℚ) cst0 cst1 2 3 "Euler" 0 0).1.length = 3 + 1 ∧
    (dynamics_solve (fun _ s => s) (1 : ℚ) (0 : ℚ) 2 3 "Euler").1.getD 2 0 =
      1 + (2 : ℕ) * 2 ∧
    (hamiltonian_solve qGrad1 pGrad1 (1 : ℚ) cst0 cst1 2 3 "Euler" 0 0).1.getD 2 0 =
      1 + (2 : ℕ) * 2) :=
  ⟨by norm_num,
   time_grid_values (fun _ s => s) qGrad1 pGrad1 1 0 cst0 cst1 2 3 "Euler"
     0 0 2 (by norm_num)⟩

/-- C8: the first entry of every returned trajectory equals the supplied
initial condition exactly: `S[0] = s_0`, `Q[0] = q_0`, `P[0] = p_0`, for any
method string. -/
theorem initial_entries_exact {R : Type} [Field R] {σ : Type} [AddCommGroup σ]
    [Module R σ] {d : ℕ} (f : R → σ → σ)
    (d_qH d_pH : (Fin d → R) → (Fin d → R) → Option R → (Fin d → R))
    (t0 : R) (s0 : σ) (q0 p0 : Fin d → R) (h : R) (N : ℕ) (method : String)
    (K m : R) :
    (dynamics_solve f t0 s0 h N method).2.getD 0 0 = s0 ∧
    (hamiltonian_solve d_qH d_pH t0 q0 p0 h N method K m).2.1.getD 0 0 = q0 ∧
    (hamiltonian_solve d_qH d_pH t0 q0 p0 h N method K m).2.2.getD 0 0 = p0 := by
  refine ⟨?_, ?_, ?_⟩
  · rw [dyn_S_getD f t0 s0 h N method 0 (by omega)]
    simp [dynState]
  · rw [ham_Q_getD d_qH d_pH t0 q0 p0 h N method K m 0 (by omega)]
    simp [hamState]
  · rw [ham_P_getD d_qH d_pH t0 q0 p0 h N method K m 0 (by omega)]
    simp [hamState]

/-- C6: `hamiltonian_solve` returns exactly the same `(T, Q, P)` for any two
values of the physical parameters `K` and `m`: they are never read by any
scheme. -/
theorem physical_params_unused {R : Type} [Field R] {d : ℕ}
    (d_qH d_pH : (Fin d → R) → (Fin d → R) → Option R → (Fin d → R))
    (t0 : R) (q0 p0 : Fin d → R) (h : R) (N : ℕ) (method : String)
    (K1 m1 K2 m2 : R) :
    hamiltonian_solve d_qH d_pH t0 q0 p0 h N method K1 m1 =
      hamiltonian_solve d_qH d_pH t0 q0 p0 h N method K2 m2 := rfl

/-- C10: for `N = 0` both solvers return length-one trajectories holding
exactly the initial conditions, for every derivative function and every
method string, so the result is independent of `f`, `d_qH`, `d_pH` and of
the method. -/
theorem zero_steps_trajectories {R : Type} [Field R] {σ : Type}
    [AddCommGroup σ] [Module R σ] {d : ℕ} (f : R → σ → σ)
    (d_qH d_pH : (Fin d → R) → (Fin d → R) → Option R → (Fin d → R))
    (t0 : R) (s0 : σ) (q0 p0 : Fin d → R) (h : R) (method : String) (K m : R) :
    dynamics_solve f t0 s0 h 0 method = ([t0], [s0]) ∧
    hamiltonian_solve d_qH d_pH t0 q0 p0 h 0 method K m = ([t0], [q0], [p0]) := by
  constructor
  · simp [dynamics_solve, dynState, timeGrid, List.range_succ]
  · simp [hamiltonian_solve, hamState, timeGrid, List.range_succ]

/-- C1: the SV branch of `hamiltonian_solve` computes, for every `n < N`,
the half-step momentum `k1 = P[n] - (h/2)·d_qH(Q[n], P[n], T[n])`, then
`Q[n+1] = Q[n] + h·d_pH(Q[n], k1, T[n])`, then
`P[n+1] = k1 - (h/2)·d_qH(Q[n+1], P[n], T[n])`: the final update passes the
old momentum `P[n]` (not `k1`) to `d_qH`, at the updated position `Q[n+1]`. -/
theorem sv_step_structure {R : Type} [Field R] {d : ℕ}
    (d_qH d_pH : (Fin d → R) → (Fin d → R) → Option R → (Fin d → R))
    (t0 : R) (q0 p0 : Fin d → R) (h : R) (N : ℕ) (K m : R) (n : ℕ)
    (o : List R × List (Fin d → R) × List (Fin d → R))
    (ho : o = hamiltonian_solve d_qH d_pH t0 q0 p0 h N "SV" K m)
    (hn : n < N) :
    o.2.1.getD (n + 1) 0 =
      o.2.1.getD n 0 +
        h • d_pH (o.2.1.getD n 0)
          (o.2.2.getD n 0 -
            (h / 2) • d_qH (o.2.1.getD n 0) (o.2.2.getD n 0) (some (o.1.getD n 0)))
          (some (o.1.getD n 0)) ∧
    o.2.2.getD (n + 1) 0 =
      (o.2.2.getD n 0 -
        (h / 2) • d_qH (o.2.1.getD n 0) (o.2.2.getD n 0) (some (o.1.getD n 0))) -
        (h / 2) • d_qH (o.2.1.getD (n + 1) 0) (o.2.2.getD n 0) (some (o.1.getD n 0)) := by
  subst ho
  have hT := ham_T_getD d_qH d_pH t0 q0 p0 h N "SV" K m n (by omega)
  have hQ := ham_Q_getD d_qH d_pH t0 q0 p0 h N "SV" K m n (by omega)
  have hP := ham_P_getD d_qH d_pH t0 q0 p0 h N "SV" K m n (by omega)
  have hQ1 := ham_Q_getD d_qH d_pH t0 q0 p0 h N "SV" K m (n + 1) (by omega)
  have hP1 := ham_P_getD d_qH d_pH t0 q0 p0 h N "SV" K m (n + 1) (by omega)
  simp only [hT, hQ, hP, hQ1, hP1]
  constructor
  · conv_lhs => rw [hamState]
    simp [timeGrid, mul_one_div, div_eq_mul_inv]
  · conv_lhs => rw [hamState]
    conv_rhs => rw [hamState]
    simp [timeGrid, mul_one_div, div_eq_mul_inv]

/-- Witness for C1 at a concrete input: the harmonic oscillator over `ℚ` in
dimension `1`, `t_0 = 0`, `q_0 = 0`, `p_0 = 1`, `h = 1`, `N = 1`, `n = 0`. -/
theorem sv_step_structure_check :
    0 < 1 ∧
    ((hamiltonian_solve qGrad1 pGrad1 (0 : ℚ) cst0 cst1 1 1 "SV" 0 0).2.1.getD (0 + 1) 0 =
      (hamiltonian_solve qGrad1 pGrad1 (0 : ℚ) cst0 cst1 1 1 "SV" 0 0).2.1.getD 0 0 +
        (1 : ℚ) • pGrad1
          ((hamiltonian_solve qGrad1 pGrad1 (0 : ℚ) cst0 cst1 1 1 "SV" 0 0).2.1.getD 0 0)
          ((hamiltonian_solve qGrad1 pGrad1 (0 : ℚ) cst0 cst1 1 1 "SV" 0 0).2.2.getD 0 0 -
            ((1 : ℚ) / 2) • qGrad1
              ((hamiltonian_solve qGrad1 pGrad1 (0 : ℚ) cst0 cst1 1 1 "SV" 0 0).2.1.getD 0 0)
              ((hamiltonian_solve qGrad1 pGrad1 (0 : ℚ) cst0 cst1 1 1 "SV" 0 0).2.2.getD 0 0)
              (some ((hamiltonian_solve qGrad1 pGrad1 (0 : ℚ) cst0 cst1 1 1 "SV" 0 0).1.getD 0 0)))
          (some ((hamiltonian_solve qGrad1 pGrad1 (0 : ℚ) cst0 cst1 1 1 "SV" 0 0).1.getD 0 0)) ∧
    (hamiltonian_solve qGrad1 pGrad1 (0 : ℚ) cst0 cst1 1 1 "SV" 0 0).2.2.getD (0 + 1) 0 =
      ((hamiltonian_solve qGrad1 pGrad1 (0 : ℚ) cst0 cst1 1 1 "SV" 0 0).2.2.getD 0 0 -
        ((1 : ℚ) / 2) • qGrad1
          ((hamiltonian_solve qGrad1 pGrad1 (0 : ℚ) cst0 cst1 1 1 "SV" 0 0).2.1.getD 0 0)
          ((hamiltonian_solve qGrad1 pGrad1 (0 : ℚ) cst0 cst1 1 1 "SV" 0 0).2.2.getD 0 0)
          (some ((hamiltonian_solve qGrad1 pGrad1 (0 : ℚ) cst0 cst1 1 1 "SV" 0 0).1.getD 0 0))) -
        ((1 : ℚ) / 2) • qGrad1
          ((hamiltonian_solve qGrad1 pGrad1 (0 : ℚ) cst0 cst1 1 1 "SV" 0 0).2.1.getD (0 + 1) 0)
          ((hamiltonian_solve qGrad1 pGrad1 (0 : ℚ) cst0 cst1 1 1 "SV" 0 0).2.2.getD 0 0)
          (some ((hamiltonian_solve qGrad1 pGrad1 (0 : ℚ) cst0 cst1 1 1 "SV" 0 0).1.getD 0 0))) :=
  ⟨by norm_num,
   sv_step_structure qGrad1 pGrad1 0 cst0 cst1 1 1 0 0 0 _ rfl (by norm_num)⟩

/-- C4: the SE branch of `hamiltonian_solve` computes, for every `n < N`,
`Q[n+1] = Q[n] + h·d_pH(Q[n], P[n], T[n])` and then
`P[n+1] = P[n] - h·d_qH(Q[n+1], P[n], T[n])`, the momentum update using the
already-updated position `Q[n+1]` rather than `Q[n]`. -/
theorem se_step_structure {R : Type} [Field R] {d : ℕ}
    (d_qH d_pH : (Fin d → R) → (Fin d → R) → Option R → (Fin d → R))
    (t0 : R) (q0 p0 : Fin d → R) (h : R) (N : ℕ) (K m : R) (n : ℕ)
    (o : List R × List (Fin d → R) × List (Fin d → R))
    (ho : o = hamiltonian_solve d_qH d_pH t0 q0 p0 h N "SE" K m)
    (hn : n < N) :
    o.2.1.getD (n + 1) 0 =
      o.2.1.getD n 0 +
        h • d_pH (o.2.1.getD n 0) (o.2.2.getD n 0) (some (o.1.getD n 0)) ∧
    o.2.2.getD (n + 1) 0 =
      o.2.2.getD n 0 -
        h • d_qH (o.2.1.getD (n + 1) 0) (o.2.2.getD n 0) (some (o.1.getD n 0)) := by
  subst ho
  have hT := ham_T_getD d_qH d_pH t0 q0 p0 h N "SE" K m n (by omega)
  have hQ := ham_Q_getD d_qH d_pH t0 q0 p0 h N "SE" K m n (by omega)
  have hP := ham_P_getD d_qH d_pH t0 q0 p0 h N "SE" K m n (by omega)
  have hQ1 := ham_Q_getD d_qH d_pH t0 q0 p0 h N "SE" K m (n + 1) (by omega)
  have hP1 := ham_P_getD d_qH d_pH t0 q0 p0 h N "SE" K m (n + 1) (by omega)
  simp only [hT, hQ, hP, hQ1, hP1]
  constructor
  · conv_lhs => rw [hamState]
    simp [timeGrid]
  · conv_lhs => rw [hamState]
    conv_rhs => rw [hamState]
    simp [timeGrid]

/-- Witness for C4 at a concrete input: the harmonic oscillator over `ℚ` in
dimension `1`, `t_0 = 0`, `q_0 = 0`, `p_0 = 1`, `h = 1`, `N = 1`, `n = 0`. -/
theorem se_step_structure_check :
    0 < 1 ∧
    ((hamiltonian_solve qGrad1 pGrad1 (0 : ℚ) cst0 cst1 1 1 "SE" 0 0).2.1.getD (0 + 1) 0 =
      (hamiltonian_solve qGrad1 pGrad1 (0 : ℚ) cst0 cst1 1 1 "SE" 0 0).2.1.getD 0 0 +
        (1 : ℚ) • pGrad1
          ((hamiltonian_solve qGrad1 pGrad1 (0 : ℚ) cst0 cst1 1 1 "SE" 0 0).2.1.getD 0 0)
          ((hamiltonian_solve qGrad1 pGrad1 (0 : ℚ) cst0 cst1 1 1 "SE" 0 0).2.2.getD 0 0)
          (some ((hamiltonian_solve qGrad1 pGrad1 (0 : ℚ) cst0 cst1 1 1 "SE" 0 0).1.getD 0 0)) ∧
    (hamiltonian_solve qGrad1 pGrad1 (0 : ℚ) cst0 cst1 1 1 "SE" 0 0).2.2.getD (0 + 1) 0 =
      (hamiltonian_solve qGrad1 pGrad1 (0 : ℚ) cst0 cst1 1 1 "SE" 0 0).2.2.getD 0 0 -
        (1 : ℚ) • qGrad1
          ((hamiltonian_solve qGrad1 pGrad1 (0 : ℚ) cst0 cst1 1 1 "SE" 0 0).2.1.getD (0 + 1) 0)
          ((hamiltonian_solve qGrad1 pGrad1 (0 : ℚ) cst0 cst1 1 1 "SE" 0 0).2.2.getD 0 0)
          (some ((hamiltonian_solve qGrad1 pGrad1 (0 : ℚ) cst0 cst1 1 1 "SE" 0 0).1.getD 0 0))) :=
  ⟨by norm_num,
   se_step_structure qGrad1 pGrad1 0 cst0 cst1 1 1 0 0 0 _ rfl (by norm_num)⟩

/-- C5: for a method string outside the recognized set of each solver the
call still returns the full time grid, the trajectories keep the initial
state at entry `0` and are exactly zero at entries `1..N`, and the
derivative functions are never evaluated (the output is unchanged under any
replacement of them). -/
theorem unknown_method_zero_tail {R : Type} [Field R] {σ : Type}
    [AddCommGroup σ] [Module R σ] {d : ℕ} (f g : R → σ → σ)
    (d_qH d_pH e_qH e_pH : (Fin d → R) → (Fin d → R) → Option R → (Fin d → R))
    (t0 : R) (s0 : σ) (q0 p0 : Fin d → R) (h : R) (N : ℕ) (method : String)
    (K m : R) :
    (method ∉ (["Euler", "RK2", "RK4"] : List String) →
      (dynamics_solve f t0 s0 h N method).1 =
        (List.range (N + 1)).map (timeGrid t0 h) ∧
      (dynamics_solve f t0 s0 h N method).2.getD 0 0 = s0 ∧
      (∀ n, 1 ≤ n → n ≤ N →
        (dynamics_solve f t0 s0 h N method).2.getD n 0 = 0) ∧
      dynamics_solve f t0 s0 h N method = dynamics_solve g t0 s0 h N method) ∧
    (method ∉ (["Euler", "RK2", "RK4", "SE", "SV"] : List String) →
      (hamiltonian_solve d_qH d_pH t0 q0 p0 h N method K m).1 =
        (List.range (N + 1)).map (timeGrid t0 h) ∧
      (hamiltonian_solve d_qH d_pH t0 q0 p0 h N method K m).2.1.getD 0 0 = q0 ∧
      (hamiltonian_solve d_qH d_pH t0 q0 p0 h N method K m).2.2.getD 0 0 = p0 ∧
      (∀ n, 1 ≤ n → n ≤ N →
        (hamiltonian_solve d_qH d_pH t0 q0 p0 h N method K m).2.1.getD n 0 = 0 ∧
        (hamiltonian_solve d_qH d_pH t0 q0 p0 h N method K m).2.2.getD n 0 = 0) ∧
      hamiltonian_solve d_qH d_pH t0 q0 p0 h N method K m =
        hamiltonian_solve e_qH e_pH t0 q0 p0 h N method K m) := by
  constructor
  · intro hm
    have h1 : method ≠ "Euler" := by rintro rfl; exact hm (by simp)
    have h2 : method ≠ "RK2" := by rintro rfl; exact hm (by simp)
    have h3 : method ≠ "RK4" := by rintro rfl; exact hm (by simp)
    have hz : ∀ (u : R → σ → σ) n,
        dynState u t0 s0 h method n = dynState f t0 s0 h method n := by
      intro u n
      cases n with
      | zero => simp [dynState]
      | succ k =>
        rw [dynState_unknown u t0 s0 h method h1 h2 h3 k,
          dynState_unknown f t0 s0 h method h1 h2 h3 k]
    refine ⟨rfl, ?_, ?_, ?_⟩
    · rw [dyn_S_getD f t0 s0 h N method 0 (by omega)]
      simp [dynState]
    · intro n hn1 hnN
      obtain ⟨k, rfl⟩ : ∃ k, n = k + 1 := ⟨n - 1, by omega⟩
      rw [dyn_S_getD f t0 s0 h N method (k + 1) (by omega)]
      exact dynState_unknown f t0 s0 h method h1 h2 h3 k
    · unfold dynamics_solve
      simp only [Prod.mk.injEq, true_and]
      exact List.map_congr_left fun a _ => (hz g a).symm
  · intro hm
    have h1 : method ≠ "Euler" := by rintro rfl; exact hm (by simp)
    have h2 : method ≠ "RK2" := by rintro rfl; exact hm (by simp)
    have h3 : method ≠ "RK4" := by rintro rfl; exact hm (by simp)
    have h4 : method ≠ "SE" := by rintro rfl; exact hm (by simp)
    have h5 : method ≠ "SV" := by rintro rfl; exact hm (by simp)
    have hz : ∀ (u v : (Fin d → R) → (Fin d → R) → Option R → (Fin d → R)) n,
        hamState u v t0 q0 p0 h method n = hamState d_qH d_pH t0 q0 p0 h method n := by
      intro u v n
      cases n with
      | zero => simp [hamState]
      | succ k =>
        rw [hamState_unknown u v t0 q0 p0 h method h1 h2 h3 h4 h5 k,
          hamState_unknown d_qH d_pH t0 q0 p0 h method h1 h2 h3 h4 h5 k]
    refine ⟨rfl, ?_, ?_, ?_, ?_⟩
    · rw [ham_Q_getD d_qH d_pH t0 q0 p0 h N method K m 0 (by omega)]
      simp [hamState]
    · rw [ham_P_getD d_qH d_pH t0 q0 p0 h N method K m 0 (by omega)]
      simp [hamState]
    · intro n hn1 hnN
      obtain ⟨k, rfl⟩ : ∃ k, n = k + 1 := ⟨n - 1, by omega⟩
      rw [ham_Q_getD d_qH d_pH t0 q0 p0 h N method K m (k + 1) (by omega),
        ham_P_getD d_qH d_pH t0 q0 p0 h N method K m (k + 1) (by omega),
        hamState_unknown d_qH d_pH t0 q0 p0 h method h1 h2 h3 h4 h5 k]
      exact ⟨rfl, rfl⟩
    · unfold hamiltonian_solve
      simp only [Prod.mk.injEq, true_and]
      constructor
      · exact List.map_congr_left fun a _ => by rw [hz e_qH e_pH a]
      · exact List.map_congr_left fun a _ => by rw [hz e_qH e_pH a]

/-- Witness for C5 at the concrete method string `"bogus"` with `N = 2` over
`ℚ` in dimension `1`. -/
theorem unknown_method_zero_tail_check :
    (dynamics_solve (fun _ s => s) (0 : ℚ) (1 : ℚ) 1 2 "bogus").2.getD 1 0 = 0 ∧
    (hamiltonian_solve qGrad1 pGrad1 (0 : ℚ) cst0 cst1 1 2 "bogus" 0 0).2.1.getD 2 0 = 0 ∧
    (hamiltonian_solve qGrad1 pGrad1 (0 : ℚ) cst0 cst1 1 2 "bogus" 0 0).2.2.getD 2 0 = 0 := by
  have hthm := unknown_method_zero_tail (fun _ s => s) (fun _ s => s)
    qGrad1 pGrad1 qGrad1 pGrad1 (0 : ℚ) (1 : ℚ) cst0 cst1 1 2 "bogus" 0 0
  refine ⟨(hthm.1 (by simp)).2.2.1 1 (by norm_num) (by norm_num), ?_, ?_⟩
  · exact ((hthm.2 (by simp)).2.2.2.1 2 (by norm_num) (by norm_num)).1
  · exact ((hthm.2 (by simp)).2.2.2.1 2 (by norm_num) (by norm_num)).2

/-- C2 fails on the code: one RK2 step of `hamiltonian_solve` on the
harmonic oscillator (`d_qH(q,p) = q`, `d_pH(q,p) = p`, `q_0 = 0`, `p_0 = 1`,
`h = 1`) gives `Q[1] = 3/2`, while `dynamics_solve` with the same RK2 stage
structure applied to the coupled pair `(dq/dt, dp/dt) = (p, -q)` gives
`Q[1] = 1`: the code evaluates the second stage of `d_pH` with the offset
`k1_Q` in the momentum slot (and of `d_qH` with `k1_P` in the position
slot), so the two derivative functions are not evaluated at the same
intermediate point. -/
theorem rk2_coupled_pair_mismatch :
    ((hamiltonian_solve qGrad1 pGrad1 (0 : ℚ) cst0 cst1 1 1 "RK2" 0 0).2.1.getD 1 0) 0 = 3/2 ∧
    (((dynamics_solve oscPair (0 : ℚ) (cst0, cst1) 1 1 "RK2").2.getD 1 0).1) 0 = 1 ∧
    ((hamiltonian_solve qGrad1 pGrad1 (0 : ℚ) cst0 cst1 1 1 "RK2" 0 0).2.1.getD 1 0) 0 ≠
      (((dynamics_solve oscPair (0 : ℚ) (cst0, cst1) 1 1 "RK2").2.getD 1 0).1) 0 := by
  rw [ham_Q_getD qGrad1 pGrad1 0 cst0 cst1 1 1 "RK2" 0 0 1 (by omega),
    dyn_S_getD oscPair 0 (cst0, cst1) 1 1 "RK2" 1 (by omega)]
  norm_num +decide [hamState, dynState, qGrad1, pGrad1, cst0, cst1, oscPair,
    timeGrid]

/-- C3 fails on the code: with `f(t, s) = t`, `t_0 = 0`, `s_0 = 0`, `h = 1`,
`N = 1`, the RK4 branch of `dynamics_solve` yields `S[1] = 1/3` because its
fourth stage evaluates `f` at time `T[n]` (line 53 of the code), while the
classical RK4 step of the specification, whose fourth stage evaluates `f` at
`T[n] + h`, yields `1/2`. -/
theorem rk4_fourth_stage_time :
    (dynamics_solve (fun t _ => t) (0 : ℚ) (0 : ℚ) 1 1 "RK4").2.getD 1 0 = 1/3 ∧
    rk4_step_spec (fun t _ => t) (1 : ℚ) 0 (0 : ℚ) = 1/2 ∧
    (dynamics_solve (fun t _ => t) (0 : ℚ) (0 : ℚ) 1 1 "RK4").2.getD 1 0 ≠
      rk4_step_spec (fun t _ => t) (1 : ℚ) 0 (0 : ℚ) := by
  rw [dyn_S_getD (fun t _ => t) 0 (0 : ℚ) 1 1 "RK4" 1 (by omega)]
  norm_num +decide [dynState, rk4_step_spec, timeGrid]
